import Mathlib

/-!
Shallow embedding of the Kiosk server (src/server.js) core logic:
the per-client scan-cooldown gate, the ad-pack selection and validation,
the redirect-URL builder, the metrics stores (local file store, remote
sheet-backed store) and the hybrid composition, together with theorems
settling the specification claims about them.

Timestamps are modelled as `Int` milliseconds since the Unix epoch,
matching JavaScript `Date.now()` arithmetic (exact integer subtraction,
no overflow at realistic magnitudes).  JavaScript `Map`s and plain
objects used as dictionaries are modelled as association lists with
replace-in-place `set` semantics (one binding per key, insertion order
preserved), matching `Map.prototype.set` / property assignment.
-/

namespace Kiosk

/-! ### JavaScript helpers

`jsOr` models `a || b` on an optional string: `undefined` and the empty
string are falsy, any other string is returned unchanged. -/

def jsOr (v : Option String) (dflt : String) : String :=
  match v with
  | none => dflt
  | some s => if s = "" then dflt else s

/-! ### Scan cooldown gate (src/server.js lines 242-277)

The gate keeps `recentScans : Map IP -> timestamp`.  We model the map as
an association list keyed by the client key string.  `mapGet` is
`Map.prototype.get` (first binding; at most one binding per key is ever
created), `mapSet` is `Map.prototype.set` (overwrite in place, else
append preserving insertion order). -/

abbrev ScanMap := List (String × Int)

def mapGet (m : ScanMap) (ip : String) : Option Int :=
  match m with
  | [] => none
  | (k, t) :: rest => if k = ip then some t else mapGet rest ip

def mapSet (m : ScanMap) (ip : String) (ts : Int) : ScanMap :=
  match m with
  | [] => [(ip, ts)]
  | (k, t) :: rest => if k = ip then (ip, ts) :: rest else (k, t) :: mapSet rest ip ts

def SCAN_COOLDOWN_MINUTES : Int := 15

def cooldownMs : Int := SCAN_COOLDOWN_MINUTES * 60 * 1000

/-- `isRecentScan(ip)` from src/server.js lines 246-254.  The source reads
`const lastScan = recentScans.get(ip); if (!lastScan) return false;`:
JavaScript falsiness means both a missing entry and a recorded timestamp
of exactly `0` take the early-exit branch. -/
def isRecentScan (m : ScanMap) (ip : String) (now : Int) : Bool :=
  match mapGet m ip with
  | none => false
  | some lastScan =>
      if lastScan = 0 then false
      else decide ((now - lastScan) < cooldownMs)

/-- `recordScan(ip)` from src/server.js lines 256-266: overwrite the
entry with the current timestamp, then sweep away every entry strictly
older than the cutoff `now - 2 * cooldown`. -/
def recordScan (m : ScanMap) (ip : String) (now : Int) : ScanMap :=
  let m' := mapSet m ip now
  let cutoff := now - SCAN_COOLDOWN_MINUTES * 2 * 60 * 1000
  m'.filter (fun e => !(decide (e.2 < cutoff)))

/-- Ceiling division on integers for a positive divisor, modelling
JavaScript `Math.ceil(a / b)` on exact integer inputs. -/
def ceilDiv (a b : Int) : Int := -((-a) / b)

/-- `getRemainingCooldown(ip)` from src/server.js lines 268-277: remaining
cooldown, clamped at zero and rounded up to whole minutes.  The same
JavaScript falsiness note as in `isRecentScan` applies to a recorded
timestamp of `0`. -/
def getRemainingCooldown (m : ScanMap) (ip : String) (now : Int) : Int :=
  match mapGet m ip with
  | none => 0
  | some lastScan =>
      if lastScan = 0 then 0
      else max 0 (ceilDiv (cooldownMs - (now - lastScan)) (60 * 1000))

/-- The gate decision as used by the `GET /kiosk/scan` handler
(src/server.js lines 336-371): a scan is allowed iff `isRecentScan` is
false; on denial the handler displays `getRemainingCooldown`. -/
def evaluate (m : ScanMap) (ip : String) (now : Int) : Bool × Int :=
  if isRecentScan m ip now then (false, getRemainingCooldown m ip now)
  else (true, 0)

/-! ### Claim C1 -/

/-- C1 (amended): for every gate state, client key and time, the gate
allows the scan when no entry exists for the key or (for an entry with a
nonzero recorded timestamp) the elapsed time is at least the 15-minute
cooldown; when an entry with a nonzero timestamp exists and the elapsed
time is strictly below the cooldown, the scan is denied and the displayed
remainder equals the time left rounded up to whole minutes, hence is
positive.  (The nonzero-timestamp proviso is forced by JavaScript
falsiness: `if (!lastScan)` treats a recorded `0` as no entry.) -/
theorem cooldown_evaluate_spec (m : ScanMap) (ip : String) (now : Int) :
    (mapGet m ip = none → (evaluate m ip now).1 = true) ∧
    (∀ t : Int, mapGet m ip = some t → t ≠ 0 → cooldownMs ≤ now - t →
      (evaluate m ip now).1 = true) ∧
    (∀ t : Int, mapGet m ip = some t → t ≠ 0 → now - t < cooldownMs →
      (evaluate m ip now).1 = false ∧
      (evaluate m ip now).2 = ceilDiv (cooldownMs - (now - t)) (60 * 1000) ∧
      0 < (evaluate m ip now).2) := by
  refine ⟨?_, ?_, ?_⟩
  · intro h
    simp [evaluate, isRecentScan, h]
  · intro t h ht helapsed
    have hrec : isRecentScan m ip now = false := by
      simp only [isRecentScan, h]
      rw [if_neg ht]
      simp only [decide_eq_false_iff_not, not_lt]
      exact helapsed
    simp [evaluate, hrec]
  · intro t h ht helapsed
    have hrec : isRecentScan m ip now = true := by
      simp only [isRecentScan, h]
      rw [if_neg ht]
      simpa using helapsed
    have hrem : getRemainingCooldown m ip now
        = ceilDiv (cooldownMs - (now - t)) (60 * 1000) := by
      simp only [getRemainingCooldown, h]
      rw [if_neg ht]
      have hpos : (0 : Int) < cooldownMs - (now - t) := by
        have : cooldownMs = 900000 := by decide
        omega
      have hce : 0 < ceilDiv (cooldownMs - (now - t)) (60 * 1000) := by
        unfold ceilDiv
        omega
      omega
    have hposc : 0 < ceilDiv (cooldownMs - (now - t)) (60 * 1000) := by
      have : cooldownMs = 900000 := by decide
      unfold ceilDiv
      omega
    refine ⟨by simp [evaluate, hrec], ?_, ?_⟩
    · simp [evaluate, hrec, hrem]
    · simpa [evaluate, hrec, hrem] using hposc

/-- Witness for C1's amended theorem at a concrete input: an entry
recorded at `t = 100` evaluated at `now = 100` (elapsed 0 ms) is denied
with a positive 15-minute remainder. -/
theorem cooldown_evaluate_spec_witness :
    (evaluate [("k", 100)] "k" 100).1 = false ∧
    (evaluate [("k", 100)] "k" 100).2
      = ceilDiv (cooldownMs - ((100 : Int) - 100)) (60 * 1000) ∧
    0 < (evaluate [("k", 100)] "k" 100).2 :=
  (cooldown_evaluate_spec [("k", 100)] "k" 100).2.2 100 rfl
    (by decide) (by decide)

/-- Counterexample to C1 as frozen: the state holding the single entry
`("k", 0)` evaluated at `now = 0` has an entry for `"k"` whose elapsed
time `0` is strictly below the cooldown, yet the gate allows the scan,
because JavaScript `if (!lastScan)` treats the recorded timestamp `0` as
absent. -/
theorem cooldown_claim_counterexample :
    mapGet [("k", 0)] "k" = some 0 ∧
    ((0 : Int) - 0 < cooldownMs) ∧
    (evaluate [("k", 0)] "k" 0).1 = true := by
  refine ⟨rfl, by decide, by decide⟩

/-! ### Claim C5 -/

/-- C5: immediately after any `recordScan`, every entry remaining in the
gate's map has age at most twice the 15-minute cooldown; equivalently no
entry strictly older than 30 minutes survives the sweep. -/
theorem recordScan_eviction (m : ScanMap) (ip : String) (now : Int)
    (k : String) (t : Int) (hmem : (k, t) ∈ recordScan m ip now) :
    now - t ≤ 2 * cooldownMs := by
  have h := List.of_mem_filter hmem
  simp only [Bool.not_eq_true', decide_eq_false_iff_not, not_lt] at h
  have : cooldownMs = 900000 := by decide
  have : SCAN_COOLDOWN_MINUTES = 15 := by decide
  omega

/-- Witness for C5 at a concrete input: recording `"a"` at time
`3000000` in a state holding a stale entry; the recorded entry is in the
resulting map and satisfies the age bound. -/
theorem recordScan_eviction_witness :
    ("a", (3000000 : Int)) ∈ recordScan [("b", 0)] "a" 3000000 ∧
    (3000000 : Int) - 3000000 ≤ 2 * cooldownMs :=
  ⟨by decide, recordScan_eviction [("b", 0)] "a" 3000000 "a" 3000000 (by decide)⟩

/-! ### Ad pack selection and validation (src/server.js lines 18-20 and 376-377)

`jsTrim` models `String.prototype.trim`, removing the ECMAScript
whitespace and line-terminator code points from both ends.  `isAdId` is
the regular expression test `/^[1-8]$/`; `FORCE_AD`/`FORCED` mirror the
two config constants; `selectAd` is the per-request selection
`const qa = (req.query.ad || '').trim(); const n = /^[1-8]$/.test(qa) ? qa : FORCED;`. -/

def jsWhitespaceCodes : List Nat :=
  [9, 10, 11, 12, 13, 32, 160, 5760, 8192, 8193, 8194, 8195, 8196, 8197,
   8198, 8199, 8200, 8201, 8202, 8232, 8233, 8239, 8287, 12288, 65279]

def isJsSpace (c : Char) : Bool := jsWhitespaceCodes.contains c.toNat

def dropLeading (p : Char → Bool) : List Char → List Char
  | [] => []
  | c :: cs => if p c then dropLeading p cs else c :: cs

def jsTrim (s : String) : String :=
  ⟨(dropLeading isJsSpace
      (dropLeading isJsSpace s.data).reverse).reverse⟩

def isAdId (s : String) : Bool :=
  match s.data with
  | [c] => decide (49 ≤ c.toNat ∧ c.toNat ≤ 56)
  | _ => false

def FORCE_AD (env : Option String) : String := jsTrim (jsOr env "3")

def FORCED (env : Option String) : String :=
  if isAdId (FORCE_AD env) then FORCE_AD env else "3"

def selectAd (queryAd : Option String) (forced : String) : String :=
  let qa := jsTrim (jsOr queryAd "")
  if isAdId qa then qa else forced

/-! ### Claim C3 -/

/-- C3: the ad finally selected always lies in the closed AdId domain
(single digit 1..8); a trimmed override in the domain is used as given; an
invalid or absent override falls back to the configured forced value; and
a trimmed forced configuration value in the domain is kept while an
invalid or absent one falls back to the default `"3"`. -/
theorem ad_selection_validation (env queryAd : Option String) :
    isAdId (selectAd queryAd (FORCED env)) = true ∧
    (isAdId (jsTrim (jsOr queryAd "")) = true →
      selectAd queryAd (FORCED env) = jsTrim (jsOr queryAd "")) ∧
    (isAdId (jsTrim (jsOr queryAd "")) = false →
      selectAd queryAd (FORCED env) = FORCED env) ∧
    (queryAd = none → selectAd queryAd (FORCED env) = FORCED env) ∧
    (isAdId (jsTrim (jsOr env "3")) = true → FORCED env = jsTrim (jsOr env "3")) ∧
    (isAdId (jsTrim (jsOr env "3")) = false → FORCED env = "3") ∧
    (env = none → FORCED env = "3") := by
  have h3 : isAdId "3" = true := by decide
  have hempty : isAdId (jsTrim "") = false := by decide
  have hforced : isAdId (FORCED env) = true := by
    by_cases hf : isAdId (FORCE_AD env) = true
    · simp [FORCED, hf]
    · simp only [Bool.not_eq_true] at hf
      simp [FORCED, hf, h3]
  refine ⟨?_, ?_, ?_, ?_, ?_, ?_, ?_⟩
  · by_cases hq : isAdId (jsTrim (jsOr queryAd "")) = true
    · simp [selectAd, hq]
    · simp only [Bool.not_eq_true] at hq
      simpa [selectAd, hq] using hforced
  · intro hq
    simp [selectAd, hq]
  · intro hq
    simp [selectAd, hq]
  · intro hq
    subst hq
    simp [selectAd, jsOr, hempty]
  · intro hf
    simp [FORCED, FORCE_AD, hf]
  · intro hf
    simp [FORCED, FORCE_AD, hf]
  · intro he
    subst he
    simp [FORCED, FORCE_AD, jsOr]
    decide

/-- Witness for C3 at concrete inputs: with `FORCE_AD` unset and the
override `" 5 "`, the trimmed override `"5"` is valid and selected. -/
theorem ad_selection_validation_witness :
    isAdId (jsTrim (jsOr (some " 5 ") "")) = true ∧
    selectAd (some " 5 ") (FORCED none) = jsTrim (jsOr (some " 5 ") "") :=
  ⟨by decide, (ad_selection_validation none (some " 5 ")).2.1 (by decide)⟩

/-! ### Day-key clock (src/server.js lines 36-41)

`dayKeyBrisbane` models `Intl.DateTimeFormat('en-CA', { timeZone:
'Australia/Brisbane', ... })`, which renders the civil date `YYYY-MM-DD`
in the fixed offset UTC+10 (Brisbane observes no daylight saving).  The
civil-date computation is the standard era-based Gregorian algorithm. -/

def MS_PER_DAY : Int := 86400000

def BRIS_OFFSET_MS : Int := 36000000

def daysFromEpoch (ms : Int) : Int := (ms + BRIS_OFFSET_MS) / MS_PER_DAY

def civilFromDays (z : Int) : Int × Int × Int :=
  let ze := z + 719468
  let era := ze / 146097
  let doe := ze - era * 146097
  let yoe := (doe - doe / 1460 + doe / 36524 - doe / 146096) / 365
  let doy := doe - (365 * yoe + yoe / 4 - yoe / 100)
  let mp := (5 * doy + 2) / 153
  let d := doy - (153 * mp + 2) / 5 + 1
  let mo := mp + (if mp < 10 then 3 else -9)
  (yoe + era * 400 + (if mo ≤ 2 then 1 else 0), mo, d)

def pad2 (n : Int) : String := if n < 10 then "0" ++ toString n else toString n

def dayKeyBrisbane (ms : Int) : String :=
  match civilFromDays (daysFromEpoch ms) with
  | (y, mo, d) => toString y ++ "-" ++ pad2 mo ++ "-" ++ pad2 d

/-! ### Rotation-mode ad selection (claim C2)

The repository totals three near-duplicate server variants; the two under
src/ implement only forced-mode selection.  Rotation mode is therefore
modelled from the spec (§4.2). -/

/-- Modelled from the spec: the day-of-week of a timestamp evaluated in
the fixed civil timezone Australia/Brisbane (UTC+10, no daylight saving),
encoded 0 = Sunday .. 6 = Saturday (1970-01-01 was a Thursday, hence the
offset 4).  Missing from src/: the rotation-mode server variant. -/
def dowBrisbane (ms : Int) : Fin 7 :=
  ⟨((daysFromEpoch ms + 4) % 7).toNat, by omega⟩

/-- Modelled from the spec: rotation-mode ad selection — "AdId derived
deterministically from the day-of-week of `now`, evaluated in the same
fixed civil timezone as DayKey, via a total mapping from each weekday to
an AdId", with the same override validation as the forced-mode source.
Missing from src/: the rotation-mode server variant. -/
def selectRotation (table : Fin 7 → String) (overrideVal : Option String)
    (now : Int) : String :=
  let qa := jsTrim (jsOr overrideVal "")
  if isAdId qa then qa else table (dowBrisbane now)

/-! ### Claim C2 -/

/-- C2: in rotation mode with no override, the selector returns the AdId
the rotation table assigns to the Brisbane day-of-week of `now`; and every
one of the seven weekdays is realised by some timestamp, at which the
selector returns that weekday's mapped AdId. -/
theorem rotation_select_weekday (table : Fin 7 → String) :
    (∀ (now : Int) (d : Fin 7), dowBrisbane now = d →
      selectRotation table none now = table d) ∧
    (∀ d : Fin 7, ∃ now : Int,
      dowBrisbane now = d ∧ selectRotation table none now = table d) := by
  have hqa : isAdId (jsTrim (jsOr (none : Option String) "")) = false := by decide
  have hmain : ∀ (now : Int) (d : Fin 7), dowBrisbane now = d →
      selectRotation table none now = table d := by
    intro now d hd
    simp [selectRotation, hqa, hd]
  refine ⟨hmain, ?_⟩
  intro d
  fin_cases d
  · exact ⟨259200000, by decide, hmain 259200000 _ (by decide)⟩
  · exact ⟨345600000, by decide, hmain 345600000 _ (by decide)⟩
  · exact ⟨432000000, by decide, hmain 432000000 _ (by decide)⟩
  · exact ⟨518400000, by decide, hmain 518400000 _ (by decide)⟩
  · exact ⟨0, by decide, hmain 0 _ (by decide)⟩
  · exact ⟨86400000, by decide, hmain 86400000 _ (by decide)⟩
  · exact ⟨172800000, by decide, hmain 172800000 _ (by decide)⟩

/-- Witness for C2 at a concrete input: at the epoch (a Thursday in
Brisbane), rotation selection with the table sending weekday `d` to the
digit `d + 1` returns `"5"`. -/
theorem rotation_select_weekday_witness :
    selectRotation (fun d => toString (d.1 + 1)) none 0 = "5" :=
  ((rotation_select_weekday (fun d => toString (d.1 + 1))).1 0
    ⟨4, by omega⟩ (by decide)).trans (by decide)

/-! ### Metrics data model

Dictionaries (`metrics.days`, `stats.days`) are plain JavaScript objects:
`objGet` is property read, `objSet` is property assignment (overwrite in
place, else append preserving insertion order). -/

def objGet {α : Type} (ds : List (String × α)) (k : String) : Option α :=
  match ds with
  | [] => none
  | (k', v) :: rest => if k' = k then some v else objGet rest k

def objSet {α : Type} (ds : List (String × α)) (k : String) (v : α) :
    List (String × α) :=
  match ds with
  | [] => [(k, v)]
  | (k', v') :: rest =>
      if k' = k then (k, v) :: rest else (k', v') :: objSet rest k v

theorem objGet_objSet_self {α : Type} (ds : List (String × α)) (k : String)
    (v : α) : objGet (objSet ds k v) k = some v := by
  induction ds with
  | nil => simp [objSet, objGet]
  | cons hd tl ih =>
      by_cases h : hd.1 = k
      · simp [objSet, objGet, h]
      · simp [objSet, objGet, h, ih]

theorem objGet_objSet_other {α : Type} (ds : List (String × α)) (k : String)
    (v : α) (d : String) (hd : d ≠ k) :
    objGet (objSet ds k v) d = objGet ds d := by
  have hkd : ¬(k = d) := fun h => hd h.symm
  induction ds with
  | nil => simp [objSet, objGet, hkd]
  | cons hdv tl ih =>
      obtain ⟨k', v'⟩ := hdv
      by_cases h : k' = k
      · subst h
        simp [objSet, objGet, hkd]
      · simp [objSet, objGet, h, ih]

/-! ### File-backed store (src/server.js lines 173-194)

A metrics snapshot is `{ tz, days }` with per-day records
`{ qr_scans, redirects }`; each bump creates the day record if absent and
increments one counter. -/

structure FileDay where
  qr_scans : Nat
  redirects : Nat
deriving DecidableEq, Repr

structure FileMetrics where
  tz : String
  days : List (String × FileDay)
deriving DecidableEq, Repr

def fileBumpScan (m : FileMetrics) (now : Int) : FileMetrics :=
  let day := dayKeyBrisbane now
  let cur := (objGet m.days day).getD ⟨0, 0⟩
  { m with days := objSet m.days day { cur with qr_scans := cur.qr_scans + 1 } }

def fileBumpRedirect (m : FileMetrics) (now : Int) : FileMetrics :=
  let day := dayKeyBrisbane now
  let cur := (objGet m.days day).getD ⟨0, 0⟩
  { m with days := objSet m.days day { cur with redirects := cur.redirects + 1 } }

/-- Observed `qr_scans` counter for a day (0 when the record is absent). -/
def fileQr (m : FileMetrics) (d : String) : Nat :=
  match objGet m.days d with
  | none => 0
  | some fd => fd.qr_scans

/-- Observed `redirects` counter for a day (0 when the record is absent). -/
def fileRd (m : FileMetrics) (d : String) : Nat :=
  match objGet m.days d with
  | none => 0
  | some fd => fd.redirects

theorem fileBumpScan_qr (m : FileMetrics) (now : Int) (d : String) :
    fileQr (fileBumpScan m now) d
      = fileQr m d + (if d = dayKeyBrisbane now then 1 else 0) := by
  by_cases h : d = dayKeyBrisbane now
  · subst h
    cases hg : objGet m.days (dayKeyBrisbane now) <;>
      simp [fileBumpScan, fileQr, objGet_objSet_self, hg]
  · simp [fileBumpScan, fileQr, objGet_objSet_other _ _ _ _ h, h]

theorem fileBumpScan_rd (m : FileMetrics) (now : Int) (d : String) :
    fileRd (fileBumpScan m now) d = fileRd m d := by
  by_cases h : d = dayKeyBrisbane now
  · subst h
    cases hg : objGet m.days (dayKeyBrisbane now) <;>
      simp [fileBumpScan, fileRd, objGet_objSet_self, hg]
  · simp [fileBumpScan, fileRd, objGet_objSet_other _ _ _ _ h]

theorem fileBumpRedirect_rd (m : FileMetrics) (now : Int) (d : String) :
    fileRd (fileBumpRedirect m now) d
      = fileRd m d + (if d = dayKeyBrisbane now then 1 else 0) := by
  by_cases h : d = dayKeyBrisbane now
  · subst h
    cases hg : objGet m.days (dayKeyBrisbane now) <;>
      simp [fileBumpRedirect, fileRd, objGet_objSet_self, hg]
  · simp [fileBumpRedirect, fileRd, objGet_objSet_other _ _ _ _ h, h]

theorem fileBumpRedirect_qr (m : FileMetrics) (now : Int) (d : String) :
    fileQr (fileBumpRedirect m now) d = fileQr m d := by
  by_cases h : d = dayKeyBrisbane now
  · subst h
    cases hg : objGet m.days (dayKeyBrisbane now) <;>
      simp [fileBumpRedirect, fileQr, objGet_objSet_self, hg]
  · simp [fileBumpRedirect, fileQr, objGet_objSet_other _ _ _ _ h]

/-! ### Google-Sheets-backed store (src/server.js lines 85-163)

A sheet row is `[Date, QR_Scans, Game_Wins, Total_Plays]`
(`headerValues`, line 72).  A counter cell is modelled as `Option Nat`:
`none` stands for a cell on which `parseInt` yields `NaN`, which the
source coalesces to 0 via `|| 0`.  `updateSheetValue` (lines 85-112) finds
the first row for the date, appends `[date, 0, 0, 0]` when absent, and
writes back the parsed value plus the increment. -/

structure SheetRow where
  date : String
  qrScansCell : Option Nat
  gameWinsCell : Option Nat
  totalPlaysCell : Option Nat
deriving DecidableEq, Repr

inductive SheetCol
  | qrScansCol
  | gameWinsCol
  | totalPlaysCol
deriving DecidableEq, Repr

def rowGet (r : SheetRow) : SheetCol → Option Nat
  | .qrScansCol => r.qrScansCell
  | .gameWinsCol => r.gameWinsCell
  | .totalPlaysCol => r.totalPlaysCell

def rowSet (r : SheetRow) (c : SheetCol) (v : Nat) : SheetRow :=
  match c with
  | .qrScansCol => { r with qrScansCell := some v }
  | .gameWinsCol => { r with gameWinsCell := some v }
  | .totalPlaysCol => { r with totalPlaysCell := some v }

def bumpRow (r : SheetRow) (c : SheetCol) (inc : Nat) : SheetRow :=
  rowSet r c ((rowGet r c).getD 0 + inc)

def newSheetRow (date : String) : SheetRow := ⟨date, some 0, some 0, some 0⟩

def updateSheetValue : List SheetRow → String → SheetCol → Nat → List SheetRow
  | [], date, c, inc => [bumpRow (newSheetRow date) c inc]
  | r :: rest, date, c, inc =>
      if r.date = date then bumpRow r c inc :: rest
      else r :: updateSheetValue rest date c inc

/-- Observed counter for a date and column: the parsed cell of the first
row for the date (0 when no row exists or the cell does not parse),
mirroring `rows.find(r => r._rawData[0] === date)` plus `parseInt || 0`. -/
def rowsVal : List SheetRow → String → SheetCol → Nat
  | [], _, _ => 0
  | r :: rest, d, c => if r.date = d then (rowGet r c).getD 0 else rowsVal rest d c

def rowExists : List SheetRow → String → Bool
  | [], _ => false
  | r :: rest, d => if r.date = d then true else rowExists rest d

theorem bumpRow_date (r : SheetRow) (c : SheetCol) (i : Nat) :
    (bumpRow r c i).date = r.date := by
  cases c <;> simp [bumpRow, rowSet]

theorem rowGet_bumpRow (r : SheetRow) (c c' : SheetCol) (i : Nat) :
    rowGet (bumpRow r c i) c'
      = if c' = c then some ((rowGet r c).getD 0 + i) else rowGet r c' := by
  cases c <;> cases c' <;> simp [bumpRow, rowSet, rowGet]

theorem rowGet_newSheetRow (day : String) (c : SheetCol) :
    rowGet (newSheetRow day) c = some 0 := by
  cases c <;> simp [rowGet, newSheetRow]

theorem newSheetRow_date (day : String) : (newSheetRow day).date = day := rfl

theorem rowsVal_updateSheetValue (rows : List SheetRow) (day : String)
    (c : SheetCol) (i : Nat) (d : String) (c' : SheetCol) :
    rowsVal (updateSheetValue rows day c i) d c'
      = rowsVal rows d c' + (if d = day ∧ c' = c then i else 0) := by
  induction rows with
  | nil =>
      by_cases hd : d = day
      · subst hd
        by_cases hc : c' = c
        · subst hc
          simp [updateSheetValue, rowsVal, bumpRow_date,
                rowGet_bumpRow, rowGet_newSheetRow, newSheetRow_date]
        · simp [updateSheetValue, rowsVal, bumpRow_date,
                rowGet_bumpRow, rowGet_newSheetRow, newSheetRow_date, hc]
      · have hdd : ¬(day = d) := fun h => hd h.symm
        simp [updateSheetValue, rowsVal, bumpRow_date, newSheetRow_date, hd, hdd]
  | cons r rest ih =>
      by_cases hr : r.date = day
      · by_cases hd : r.date = d
        · have hdday : d = day := hd.symm.trans hr
          by_cases hc : c' = c
          · subst hc
            simp [updateSheetValue, rowsVal, hr, hd, bumpRow_date,
                  rowGet_bumpRow, hdday]
          · simp [updateSheetValue, rowsVal, hr, hd, bumpRow_date,
                  rowGet_bumpRow, hc, hdday]
        · have hdday : ¬(d = day) := fun h => hd (hr.trans h.symm)
          have hdd2 : ¬(day = d) := fun h => hdday h.symm
          simp [updateSheetValue, rowsVal, hr, hd, bumpRow_date, hdday, hdd2]
      · by_cases hd : r.date = d
        · have hdday : ¬(d = day) := fun h => hr (hd.trans h)
          simp [updateSheetValue, rowsVal, hr, hd, hdday]
        · simp [updateSheetValue, rowsVal, hr, hd, ih]

theorem rowExists_updateSheetValue (rows : List SheetRow) (day : String)
    (c : SheetCol) (i : Nat) :
    rowExists (updateSheetValue rows day c i) day = true := by
  induction rows with
  | nil => simp [updateSheetValue, rowExists, bumpRow_date, newSheetRow]
  | cons r rest ih =>
      by_cases hr : r.date = day
      · simp [updateSheetValue, rowExists, hr, bumpRow_date]
      · simp [updateSheetValue, rowExists, hr, ih]

/-! ### Remote snapshot and hybrid store (src/server.js lines 137-162 and 197-238) -/

structure MetricsDay where
  qr_scans : Nat
  redirects : Nat
  game_wins : Nat
  total_plays : Nat
deriving DecidableEq, Repr

/-- One `stats.days[date]` record built by `getStats` (lines 144-154).
The source reads `redirects: parseInt(row._rawData[1]) || 0` with the
comment "Use QR_Scans for redirects too": both fields come from the
QR_Scans cell. -/
def rowToDay (r : SheetRow) : MetricsDay :=
  { qr_scans := r.qrScansCell.getD 0
    redirects := r.qrScansCell.getD 0
    game_wins := r.gameWinsCell.getD 0
    total_plays := r.totalPlaysCell.getD 0 }

/-- `getStats` (lines 137-162): fold over the rows, skipping rows whose
date cell is falsy (the empty string), assigning `stats.days[date]`. -/
def sheetGetStats (rows : List SheetRow) : List (String × MetricsDay) :=
  rows.foldl
    (fun acc r => if r.date = "" then acc else objSet acc r.date (rowToDay r)) []

structure Stats where
  days : List (String × MetricsDay)
deriving DecidableEq, Repr

/-- The hybrid read result: either the remote snapshot or the local file
snapshot (the two objects have different shapes in the source). -/
inductive MetricsSnapshot
  | remote (s : Stats)
  | localFile (m : FileMetrics)
deriving DecidableEq, Repr

/-- `hybridStore.getMetrics` (lines 219-230), parameterised by the
outcome of `(await googleStore).getStats()`: on a throw fall through to
the file store; on success return the remote snapshot iff it has at
least one day, else the file store's snapshot. -/
def hybridGetMetrics (primary : Except Unit Stats) (m : FileMetrics) :
    MetricsSnapshot :=
  match primary with
  | .error _ => .localFile m
  | .ok g => if 0 < g.days.length then .remote g else .localFile m

/-- Hybrid mutable state: the file store's in-memory metrics and the
optional Google sheet (none when Sheets is not configured, in which case
the remote bump functions return immediately, lines 119-135). -/
structure HybridState where
  fileM : FileMetrics
  sheet : Option (List SheetRow)
deriving DecidableEq, Repr

/-- `hybridStore.bumpScan` (lines 202-205): file store then remote. -/
def hBumpScan (st : HybridState) (now : Int) : HybridState :=
  { fileM := fileBumpScan st.fileM now
    sheet := st.sheet.map
      (fun rows => updateSheetValue rows (dayKeyBrisbane now) .qrScansCol 1) }

/-- `hybridStore.bumpRedirect` (lines 215-217): file store only. -/
def hBumpRedirect (st : HybridState) (now : Int) : HybridState :=
  { st with fileM := fileBumpRedirect st.fileM now }

/-- `hybridStore.bumpWin` (lines 207-209): remote only. -/
def hBumpWin (st : HybridState) (now : Int) : HybridState :=
  { fileM := st.fileM
    sheet := st.sheet.map
      (fun rows => updateSheetValue rows (dayKeyBrisbane now) .gameWinsCol 1) }

/-- `hybridStore.bumpPlay` (lines 211-213): remote only. -/
def hBumpPlay (st : HybridState) (now : Int) : HybridState :=
  { fileM := st.fileM
    sheet := st.sheet.map
      (fun rows => updateSheetValue rows (dayKeyBrisbane now) .totalPlaysCol 1) }

/-- Observed remote counter through the optional sheet (0 when Sheets is
not configured). -/
def sheetVal (s : Option (List SheetRow)) (d : String) (c : SheetCol) : Nat :=
  match s with
  | none => 0
  | some rows => rowsVal rows d c

inductive MOp
  | scanOp (now : Int)
  | redirectOp (now : Int)
  | winOp (now : Int)
  | playOp (now : Int)

def applyOp (st : HybridState) : MOp → HybridState
  | .scanOp now => hBumpScan st now
  | .redirectOp now => hBumpRedirect st now
  | .winOp now => hBumpWin st now
  | .playOp now => hBumpPlay st now

def runOps (st : HybridState) (ops : List MOp) : HybridState :=
  ops.foldl applyOp st

theorem sheetVal_map_update_le (s : Option (List SheetRow)) (day : String)
    (c : SheetCol) (d : String) (c' : SheetCol) :
    sheetVal s d c'
      ≤ sheetVal (s.map (fun rows => updateSheetValue rows day c 1)) d c' := by
  cases s with
  | none => simp [sheetVal]
  | some rows => simp [sheetVal, rowsVal_updateSheetValue]

theorem applyOp_counters_le (st : HybridState) (op : MOp) (d : String)
    (c : SheetCol) :
    fileQr st.fileM d ≤ fileQr (applyOp st op).fileM d ∧
    fileRd st.fileM d ≤ fileRd (applyOp st op).fileM d ∧
    sheetVal st.sheet d c ≤ sheetVal (applyOp st op).sheet d c := by
  cases op with
  | scanOp now =>
      refine ⟨?_, ?_, ?_⟩
      · simp [applyOp, hBumpScan, fileBumpScan_qr]
      · simp [applyOp, hBumpScan, fileBumpScan_rd]
      · exact sheetVal_map_update_le st.sheet (dayKeyBrisbane now) .qrScansCol d c
  | redirectOp now =>
      refine ⟨?_, ?_, ?_⟩
      · simp [applyOp, hBumpRedirect, fileBumpRedirect_qr]
      · simp [applyOp, hBumpRedirect, fileBumpRedirect_rd]
      · simp [applyOp, hBumpRedirect]
  | winOp now =>
      refine ⟨?_, ?_, ?_⟩
      · simp [applyOp, hBumpWin]
      · simp [applyOp, hBumpWin]
      · exact sheetVal_map_update_le st.sheet (dayKeyBrisbane now) .gameWinsCol d c
  | playOp now =>
      refine ⟨?_, ?_, ?_⟩
      · simp [applyOp, hBumpPlay]
      · simp [applyOp, hBumpPlay]
      · exact sheetVal_map_update_le st.sheet (dayKeyBrisbane now) .totalPlaysCol d c

theorem runOps_counters_le (ops : List MOp) (st : HybridState) (d : String)
    (c : SheetCol) :
    fileQr st.fileM d ≤ fileQr (runOps st ops).fileM d ∧
    fileRd st.fileM d ≤ fileRd (runOps st ops).fileM d ∧
    sheetVal st.sheet d c ≤ sheetVal (runOps st ops).sheet d c := by
  induction ops generalizing st with
  | nil => simp [runOps]
  | cons op rest ih =>
      have h1 := applyOp_counters_le st op d c
      have h2 := ih (applyOp st op)
      have hrun : runOps st (op :: rest) = runOps (applyOp st op) rest := rfl
      rw [hrun]
      exact ⟨le_trans h1.1 h2.1, le_trans h1.2.1 h2.2.1, le_trans h1.2.2 h2.2.2⟩

/-! ### Claim C6 -/

/-- C6: for every metrics state, `bumpScan` and `bumpRedirect` increment
the file store's `qr_scans` respectively `redirects` counter of the
record for `dayKey(now)` by exactly one, creating the record if absent;
`bumpWin`, `bumpPlay` (and the sheet half of `bumpScan`) increment the
sheet store's corresponding cell of the row for `dayKey(now)` by exactly
one, creating the row if absent; and across any sequence of bump
operations on the hybrid store no counter of any day ever decreases, in
either store. -/
theorem bump_counter_semantics (m : FileMetrics) (rows : List SheetRow)
    (now : Int) (st : HybridState) (ops : List MOp) (d : String)
    (c : SheetCol) :
    (fileQr (fileBumpScan m now) (dayKeyBrisbane now)
      = fileQr m (dayKeyBrisbane now) + 1) ∧
    ((objGet (fileBumpScan m now).days (dayKeyBrisbane now)).isSome = true) ∧
    (fileRd (fileBumpRedirect m now) (dayKeyBrisbane now)
      = fileRd m (dayKeyBrisbane now) + 1) ∧
    ((objGet (fileBumpRedirect m now).days (dayKeyBrisbane now)).isSome = true) ∧
    (rowsVal (updateSheetValue rows (dayKeyBrisbane now) SheetCol.gameWinsCol 1)
        (dayKeyBrisbane now) SheetCol.gameWinsCol
      = rowsVal rows (dayKeyBrisbane now) SheetCol.gameWinsCol + 1) ∧
    (rowsVal (updateSheetValue rows (dayKeyBrisbane now) SheetCol.totalPlaysCol 1)
        (dayKeyBrisbane now) SheetCol.totalPlaysCol
      = rowsVal rows (dayKeyBrisbane now) SheetCol.totalPlaysCol + 1) ∧
    (rowsVal (updateSheetValue rows (dayKeyBrisbane now) SheetCol.qrScansCol 1)
        (dayKeyBrisbane now) SheetCol.qrScansCol
      = rowsVal rows (dayKeyBrisbane now) SheetCol.qrScansCol + 1) ∧
    (rowExists (updateSheetValue rows (dayKeyBrisbane now) c 1)
        (dayKeyBrisbane now) = true) ∧
    (fileQr st.fileM d ≤ fileQr (runOps st ops).fileM d) ∧
    (fileRd st.fileM d ≤ fileRd (runOps st ops).fileM d) ∧
    (sheetVal st.sheet d c ≤ sheetVal (runOps st ops).sheet d c) := by
  refine ⟨?_, ?_, ?_, ?_, ?_, ?_, ?_, ?_, ?_, ?_, ?_⟩
  · simpa using fileBumpScan_qr m now (dayKeyBrisbane now)
  · simp [fileBumpScan, objGet_objSet_self]
  · simpa using fileBumpRedirect_rd m now (dayKeyBrisbane now)
  · simp [fileBumpRedirect, objGet_objSet_self]
  · simpa using rowsVal_updateSheetValue rows (dayKeyBrisbane now)
      SheetCol.gameWinsCol 1 (dayKeyBrisbane now) SheetCol.gameWinsCol
  · simpa using rowsVal_updateSheetValue rows (dayKeyBrisbane now)
      SheetCol.totalPlaysCol 1 (dayKeyBrisbane now) SheetCol.totalPlaysCol
  · simpa using rowsVal_updateSheetValue rows (dayKeyBrisbane now)
      SheetCol.qrScansCol 1 (dayKeyBrisbane now) SheetCol.qrScansCol
  · exact rowExists_updateSheetValue rows (dayKeyBrisbane now) c 1
  · exact (runOps_counters_le ops st d c).1
  · exact (runOps_counters_le ops st d c).2.1
  · exact (runOps_counters_le ops st d c).2.2

/-! ### Claim C10 -/

/-- C10: hybrid write routing — `bumpScan` writes through to both the
file store and (when configured) the sheet store; `bumpRedirect` writes
only to the file store and leaves the sheet untouched; `bumpWin` and
`bumpPlay` write only to the sheet store and leave the file snapshot
untouched. -/
theorem hybrid_write_routing (st : HybridState) (now : Int) :
    ((hBumpScan st now).fileM = fileBumpScan st.fileM now) ∧
    (st.sheet = none → (hBumpScan st now).sheet = none) ∧
    (∀ rows, st.sheet = some rows → (hBumpScan st now).sheet
      = some (updateSheetValue rows (dayKeyBrisbane now) SheetCol.qrScansCol 1)) ∧
    ((hBumpRedirect st now).fileM = fileBumpRedirect st.fileM now) ∧
    ((hBumpRedirect st now).sheet = st.sheet) ∧
    ((hBumpWin st now).fileM = st.fileM) ∧
    (∀ rows, st.sheet = some rows → (hBumpWin st now).sheet
      = some (updateSheetValue rows (dayKeyBrisbane now) SheetCol.gameWinsCol 1)) ∧
    ((hBumpPlay st now).fileM = st.fileM) ∧
    (∀ rows, st.sheet = some rows → (hBumpPlay st now).sheet
      = some (updateSheetValue rows (dayKeyBrisbane now) SheetCol.totalPlaysCol 1)) := by
  refine ⟨rfl, ?_, ?_, rfl, rfl, rfl, ?_, rfl, ?_⟩
  · intro h
    simp [hBumpScan, h]
  · intro rows h
    simp [hBumpScan, h]
  · intro rows h
    simp [hBumpWin, h]
  · intro rows h
    simp [hBumpPlay, h]

/-- Witness for C10 at a concrete input: scanning on a configured but
empty sheet routes the sheet write through `updateSheetValue`. -/
theorem hybrid_write_routing_witness :
    (hBumpScan ⟨⟨"Australia/Brisbane", []⟩, some []⟩ 0).sheet
      = some (updateSheetValue [] (dayKeyBrisbane 0) SheetCol.qrScansCol 1) :=
  (hybrid_write_routing ⟨⟨"Australia/Brisbane", []⟩, some []⟩ 0).2.2.1 [] rfl

/-! ### Claim C4 -/

/-- C4: the hybrid read returns the local file snapshot unchanged when
the primary throws or yields no day records, and returns the primary's
snapshot when it yields at least one day record. -/
theorem hybrid_read_fallback (g : Stats) (m : FileMetrics) :
    (hybridGetMetrics (Except.error ()) m = MetricsSnapshot.localFile m) ∧
    (g.days = [] →
      hybridGetMetrics (Except.ok g) m = MetricsSnapshot.localFile m) ∧
    (g.days ≠ [] →
      hybridGetMetrics (Except.ok g) m = MetricsSnapshot.remote g) := by
  refine ⟨rfl, ?_, ?_⟩
  · intro h
    simp [hybridGetMetrics, h]
  · intro h
    have hl : 0 < g.days.length := List.length_pos.mpr h
    simp [hybridGetMetrics, hl]

/-- Witness for C4 at concrete inputs: a one-day remote snapshot is
returned as the remote snapshot. -/
theorem hybrid_read_fallback_witness :
    hybridGetMetrics (Except.ok ⟨[("2025-01-01", ⟨1, 1, 0, 0⟩)]⟩)
        ⟨"Australia/Brisbane", []⟩
      = MetricsSnapshot.remote ⟨[("2025-01-01", ⟨1, 1, 0, 0⟩)]⟩ :=
  (hybrid_read_fallback ⟨[("2025-01-01", ⟨1, 1, 0, 0⟩)]⟩
    ⟨"Australia/Brisbane", []⟩).2.2 (by simp)

/-! ### Claim C9 -/

theorem mem_objSet {α : Type} (ds : List (String × α)) (k : String) (v : α)
    (p : String × α) (hmem : p ∈ objSet ds k v) : p ∈ ds ∨ p.2 = v := by
  induction ds with
  | nil =>
      simp [objSet] at hmem
      exact Or.inr (by rw [hmem])
  | cons hd tl ih =>
      obtain ⟨k', v'⟩ := hd
      simp only [objSet] at hmem
      by_cases h : k' = k
      · rw [if_pos h] at hmem
        rcases List.mem_cons.mp hmem with h1 | h1
        · exact Or.inr (by rw [h1])
        · exact Or.inl (List.mem_cons_of_mem _ h1)
      · rw [if_neg h] at hmem
        rcases List.mem_cons.mp hmem with h1 | h1
        · exact Or.inl (by rw [h1]; exact List.mem_cons_self _ _)
        · rcases ih h1 with h2 | h2
          · exact Or.inl (List.mem_cons_of_mem _ h2)
          · exact Or.inr h2

theorem sheetGetStats_redirects_eq (rows : List SheetRow) :
    ∀ p ∈ sheetGetStats rows, p.2.redirects = p.2.qr_scans := by
  suffices h : ∀ acc, (∀ p ∈ acc, p.2.redirects = p.2.qr_scans) →
      ∀ p ∈ rows.foldl
        (fun acc r =>
          if r.date = "" then acc else objSet acc r.date (rowToDay r)) acc,
        p.2.redirects = p.2.qr_scans by
    intro p hp
    exact h [] (by simp) p hp
  induction rows with
  | nil =>
      intro acc hacc p hp
      exact hacc p hp
  | cons r rest ih =>
      intro acc hacc p hp
      simp only [List.foldl_cons] at hp
      by_cases hr : r.date = ""
      · rw [if_pos hr] at hp
        exact ih acc hacc p hp
      · rw [if_neg hr] at hp
        refine ih _ ?_ p hp
        intro q hq
        rcases mem_objSet _ _ _ q hq with h1 | h1
        · exact hacc q h1
        · rw [h1]
          rfl

/-- C9: whenever the hybrid read returns the remote snapshot built by the
sheet store's `getStats`, every returned day record has `redirects` equal
to `qr_scans` — the sheet stores no redirects column and `getStats` fills
both fields from the QR_Scans cell. -/
theorem remote_snapshot_redirects (rows : List SheetRow) (m : FileMetrics)
    (g : Stats)
    (h : hybridGetMetrics (Except.ok ⟨sheetGetStats rows⟩) m
      = MetricsSnapshot.remote g) :
    ∀ d md, (d, md) ∈ g.days → md.redirects = md.qr_scans := by
  obtain ⟨gd⟩ := g
  by_cases hl : 0 < (sheetGetStats rows).length
  · simp only [hybridGetMetrics] at h
    rw [if_pos hl] at h
    have hdays : sheetGetStats rows = gd := by
      injection h with h2
      injection h2
    intro d md hmem
    rw [← hdays] at hmem
    exact sheetGetStats_redirects_eq rows (d, md) hmem
  · simp only [hybridGetMetrics] at h
    rw [if_neg hl] at h
    cases h

/-- Witness for C9 at a concrete input: a single sheet row with QR_Scans
cell 2 yields the remote day record `⟨2, 2, 0, 1⟩`, whose `redirects`
equals its `qr_scans`. -/
theorem remote_snapshot_redirects_witness :
    (⟨2, 2, 0, 1⟩ : MetricsDay).redirects
      = (⟨2, 2, 0, 1⟩ : MetricsDay).qr_scans :=
  remote_snapshot_redirects [⟨"2025-01-01", some 2, some 0, some 1⟩]
    ⟨"Australia/Brisbane", []⟩
    ⟨sheetGetStats [⟨"2025-01-01", some 2, some 0, some 1⟩]⟩ rfl
    "2025-01-01" ⟨2, 2, 0, 1⟩ (by decide)

/-! ### Redirect builder (src/server.js lines 378-381)

`new URL(GAME_URL)` throws on a malformed base, so a `UrlModel` value
represents an already-parsed, syntactically valid URL: `base` is the
scheme/host/path portion, `params` the search parameters in order.
`setParam` is `URLSearchParams.set`: overwrite the first binding of the
key in place, drop any further bindings, append when absent. -/

def removeParam : List (String × String) → String → List (String × String)
  | [], _ => []
  | (k', v') :: rest, k =>
      if k' = k then removeParam rest k else (k', v') :: removeParam rest k

def setParam : List (String × String) → String → String →
    List (String × String)
  | [], k, v => [(k, v)]
  | (k', v') :: rest, k, v =>
      if k' = k then (k, v) :: removeParam rest k
      else (k', v') :: setParam rest k v

def getParam : List (String × String) → String → Option String
  | [], _ => none
  | (k', v') :: rest, k => if k' = k then some v' else getParam rest k

structure UrlModel where
  base : String
  params : List (String × String)
deriving DecidableEq, Repr

/-- The target URL built by the scan handler:
`target.searchParams.set('ad', n); set('pack', 'ad'+n); set('t', Date.now().toString())`. -/
def buildTarget (u : UrlModel) (adId : String) (nowMs : Int) : UrlModel :=
  { base := u.base
    params :=
      setParam
        (setParam (setParam u.params "ad" adId) "pack" ("ad" ++ adId))
        "t" (toString nowMs) }

theorem getParam_removeParam (l : List (String × String)) (k d : String)
    (h : d ≠ k) : getParam (removeParam l k) d = getParam l d := by
  induction l with
  | nil => rfl
  | cons hd tl ih =>
      obtain ⟨k', v'⟩ := hd
      have hkd : ¬(k = d) := fun h2 => h h2.symm
      by_cases hk : k' = k
      · have : ¬(k' = d) := fun h2 => h (h2.symm.trans hk)
        simp [removeParam, getParam, hk, this, hkd, ih]
      · by_cases hd2 : k' = d
        · simp [removeParam, getParam, hk, hd2, h]
        · simp [removeParam, getParam, hk, hd2, ih]

theorem getParam_setParam_self (l : List (String × String)) (k v : String) :
    getParam (setParam l k v) k = some v := by
  induction l with
  | nil => simp [setParam, getParam]
  | cons hd tl ih =>
      obtain ⟨k', v'⟩ := hd
      by_cases hk : k' = k
      · simp [setParam, getParam, hk]
      · simp [setParam, getParam, hk, ih]

theorem getParam_setParam_other (l : List (String × String)) (k v d : String)
    (h : d ≠ k) : getParam (setParam l k v) d = getParam l d := by
  induction l with
  | nil =>
      have : ¬(k = d) := fun h2 => h h2.symm
      simp [setParam, getParam, this]
  | cons hd tl ih =>
      obtain ⟨k', v'⟩ := hd
      by_cases hk : k' = k
      · have hkd : ¬(k = d) := fun h2 => h h2.symm
        have hk'd : ¬(k' = d) := fun h2 => h (h2.symm.trans hk)
        simp [setParam, getParam, hk, hkd, hk'd,
              getParam_removeParam tl k d h]
      · by_cases hd2 : k' = d
        · simp [setParam, getParam, hk, hd2, h]
        · simp [setParam, getParam, hk, hd2, ih]

/-! ### Claim C7 -/

/-- C7: the redirect builder is a pure function of the base URL, the ad
identifier and the current time; it preserves the base (hence validity of
the parsed URL) and sets exactly the three query parameters `ad` (the
identifier), `pack` (the fixed prefix "ad" concatenated with the
identifier) and `t` (the current time in milliseconds); every other query
parameter of the base URL is left unchanged. -/
theorem buildTarget_params (u : UrlModel) (adId : String) (nowMs : Int) :
    (buildTarget u adId nowMs).base = u.base ∧
    getParam (buildTarget u adId nowMs).params "ad" = some adId ∧
    getParam (buildTarget u adId nowMs).params "pack" = some ("ad" ++ adId) ∧
    getParam (buildTarget u adId nowMs).params "t" = some (toString nowMs) ∧
    (∀ k, k ≠ "ad" → k ≠ "pack" → k ≠ "t" →
      getParam (buildTarget u adId nowMs).params k = getParam u.params k) := by
  refine ⟨rfl, ?_, ?_, ?_, ?_⟩
  · rw [buildTarget]
    rw [getParam_setParam_other _ _ _ _ (by decide)]
    rw [getParam_setParam_other _ _ _ _ (by decide)]
    exact getParam_setParam_self _ _ _
  · rw [buildTarget]
    rw [getParam_setParam_other _ _ _ _ (by decide)]
    exact getParam_setParam_self _ _ _
  · rw [buildTarget]
    exact getParam_setParam_self _ _ _
  · intro k had hpack ht
    rw [buildTarget]
    rw [getParam_setParam_other _ _ _ _ ht]
    rw [getParam_setParam_other _ _ _ _ hpack]
    exact getParam_setParam_other _ _ _ _ had

/-- Witness for C7 at a concrete input: an unrelated query parameter of
the base URL is untouched by the builder. -/
theorem buildTarget_params_witness :
    getParam
        (buildTarget ⟨"https://flashka16.onrender.com/", [("x", "1")]⟩
          "3" 0).params "x"
      = getParam [("x", "1")] "x" :=
  (buildTarget_params ⟨"https://flashka16.onrender.com/", [("x", "1")]⟩
    "3" 0).2.2.2.2 "x" (by decide) (by decide) (by decide)

/-! ### Admin gating (src/server.js lines 15, 43-48 and 413-424) -/

/-- `ADMIN_KEY = process.env.ADMIN_KEY || null` (line 15): an unset or
empty environment value leaves the admin key unconfigured. -/
def adminKeyConfig (env : Option String) : Option String :=
  match env with
  | none => none
  | some s => if s = "" then none else some s

/-- `requireAdmin` (lines 43-48): `true` means the request proceeds,
`false` means the 401 branch was taken.  The query value is read as
`req.query.key || ''`. -/
def requireAdmin (adminKey : Option String) (queryKey : Option String) : Bool :=
  match adminKey with
  | none => true
  | some k => decide (jsOr queryKey "" = k)

/-- The `GET /kiosk/stats` handler outcome (lines 413-424): the HTTP
status and the metrics rows served (none when blocked). -/
def statsResponse (adminKey : Option String) (queryKey : Option String)
    (rows : List (String × MetricsDay)) :
    Nat × Option (List (String × MetricsDay)) :=
  if requireAdmin adminKey queryKey then (200, some rows) else (401, none)

/-! ### Claim C8 -/

/-- C8: when no admin key is configured, the stats endpoint is served
without authentication; when one is configured, the request is served iff
the `key` query parameter equals the configured key, and otherwise
receives HTTP 401 with no metrics. -/
theorem admin_gating (env queryKey : Option String)
    (rows : List (String × MetricsDay)) :
    (adminKeyConfig env = none →
      statsResponse (adminKeyConfig env) queryKey rows = (200, some rows)) ∧
    (∀ k, adminKeyConfig env = some k →
      (jsOr queryKey "" = k →
        statsResponse (adminKeyConfig env) queryKey rows = (200, some rows)) ∧
      (jsOr queryKey "" ≠ k →
        statsResponse (adminKeyConfig env) queryKey rows = (401, none))) := by
  refine ⟨?_, ?_⟩
  · intro h
    simp [statsResponse, requireAdmin, h]
  · intro k hk
    refine ⟨?_, ?_⟩
    · intro hq
      simp [statsResponse, requireAdmin, hk, hq]
    · intro hq
      simp [statsResponse, requireAdmin, hk, hq]

/-- Witness for C8 at concrete inputs: with the key `"s3cret"`
configured, a matching query is served and a missing query is blocked
with 401. -/
theorem admin_gating_witness :
    statsResponse (adminKeyConfig (some "s3cret")) (some "s3cret") []
      = (200, some []) ∧
    statsResponse (adminKeyConfig (some "s3cret")) none [] = (401, none) :=
  ⟨((admin_gating (some "s3cret") (some "s3cret") []).2 "s3cret"
      (by decide)).1 (by decide),
   ((admin_gating (some "s3cret") none []).2 "s3cret" (by decide)).2
      (by decide)⟩

end Kiosk
